import Mathlib

/-!
Verification of the Theia plugin-host bridge layer
(`workspace-main.ts`, `notebook-documents-main.ts`,
`notebook-cell-resource-resolver.ts`) against its specification.

The TypeScript classes are shallowly embedded: each method becomes a pure
Lean function over an explicit state, asynchronous RPC round-trips become
explicit `Option`-valued inputs (the value the remote side answered with),
and a method that throws is embedded as an `Except`-valued function.
JavaScript semantics that matter are embedded explicitly:
string truthiness (the empty string is falsy) and
`Object.prototype.toString` on plain data objects.
-/

namespace TheiaBridge

/-! ## TextContentResource (workspace-main.ts, lines 107-138)

State of a `TextContentResource` is its single-slot cache
(`cache: string | undefined`).  The remote proxy call
`$provideTextDocumentContent` is embedded as an `Option String` input:
`none` models the remote side answering `null`/`undefined`. -/

structure TextContentResource where
  cache : Option String
deriving DecidableEq, Repr

/-- JavaScript truthiness of `this.cache` (a `string | undefined`):
`undefined` is falsy, and so is the empty string. -/
def jsStringTruthy : Option String → Bool
  | none => false
  | some s => !(s == "")

/-- Embedding of `TextContentResource.readContents`: if the cache is truthy,
consume it (set it to `undefined`) and return it; otherwise ask the remote
proxy and return `content ?? ''` (the cache field is left as it was).
Returns the state after the call together with the resolved string. -/
def TextContentResource.readContents (r : TextContentResource)
    (remoteContent : Option String) : TextContentResource × String :=
  if jsStringTruthy r.cache then
    ({ cache := none }, r.cache.getD "")
  else
    (r, remoteContent.getD "")

/-- Embedding of `TextContentResource.setContent` (the content-change event
it also fires has no bearing on the state). -/
def TextContentResource.setContent (_ : TextContentResource)
    (content : String) : TextContentResource :=
  { cache := some content }

/-! ## TextContentResourceResolver registration
(workspace-main.ts, lines 67-96)

The `providers` map of `TextContentResourceResolver` is embedded as an
association list from scheme to the proxy captured by the registered
provider closure (proxies are identified by a number).  A method that
throws becomes `Except.error` carrying the message; since the JS methods
throw before any mutation, an error leaves the receiver's state as it
was, which `stateAfter` makes explicit. -/

abbrev ProviderMap := List (String × Nat)

/-- Embedding of `TextContentResourceResolver.registerContentProvider`:
throws when the scheme is present, otherwise inserts the provider
(capturing `proxy`) under the scheme. -/
def registerContentProvider (providers : ProviderMap) (scheme : String)
    (proxy : Nat) : Except String ProviderMap :=
  if (providers.lookup scheme).isSome then
    Except.error ("Text Content Resource Provider for scheme '" ++ scheme ++ "' is already registered")
  else
    Except.ok ((scheme, proxy) :: providers)

/-- Embedding of `TextContentResourceResolver.unregisterContentProvider`:
`Map.delete` returns whether the key was present, and the method throws
when it was not. -/
def unregisterContentProvider (providers : ProviderMap) (scheme : String) :
    Except String ProviderMap :=
  if (providers.lookup scheme).isSome then
    Except.ok (providers.eraseP (fun p => p.1 == scheme))
  else
    Except.error ("Text Content Resource Provider for scheme '" ++ scheme ++ "' has not been registered")

/-- State of the receiver after a call that may throw: a thrown exception
propagates before any mutation, so the state is unchanged on error. -/
def stateAfter {σ : Type} (old : σ) : Except String σ → σ
  | Except.ok s => s
  | Except.error _ => old

/-! ## Workspace folder change processing
(workspace-main.ts, lines 199-220)

`this.roots` starts out `undefined` (embedded as `none`).  With equal
lengths, `this.roots.some((root, index) => root !== roots[index])`
inspects exactly the positional pairs, i.e. the pairs of `List.zip`. -/

/-- Embedding of `WorkspaceMainImpl.isAnyRootChanged`. -/
def isAnyRootChanged (stored : Option (List String)) (roots : List String) :
    Bool :=
  match stored with
  | none => true
  | some old =>
    if old.length != roots.length then true
    else (old.zip roots).any (fun p => p.1 != p.2)

/-- Embedding of `WorkspaceMainImpl.processWorkspaceFoldersChanged`,
returning the stored root list after the call and whether the
`$onWorkspaceFoldersChanged` notification was sent. -/
def processWorkspaceFoldersChanged (stored : Option (List String))
    (roots : List String) : Option (List String) × Bool :=
  if isAnyRootChanged stored roots = false then
    (stored, false)
  else
    (some roots, true)

/-! ## URI model (shared)

`UriComponents` (from `@theia/core/lib/common/uri`) is a plain-data
interface: it is what `URI.toComponents()` returns and what crosses the
RPC boundary, with no methods of its own.  `TheiaURI` embeds the `URI`
class, whose `toString()` produces the usual `scheme:...` rendering
(`vscode-uri`'s formatting, embedded in simplified but
scheme-prefixed form). -/

structure UriComponents where
  scheme : String
  authority : String
  path : String
  query : String
  fragment : String
deriving DecidableEq, Repr

structure TheiaURI where
  components : UriComponents
deriving DecidableEq, Repr

def TheiaURI.scheme (u : TheiaURI) : String := u.components.scheme

/-- Embedding of `URI.toString()`: the `vscode-uri` rendering
`scheme:[//authority]path[?query][#fragment]`. -/
def TheiaURI.toString (u : TheiaURI) : String :=
  u.components.scheme ++ ":"
    ++ (if u.components.authority == "" then "" else "//" ++ u.components.authority)
    ++ u.components.path
    ++ (if u.components.query == "" then "" else "?" ++ u.components.query)
    ++ (if u.components.fragment == "" then "" else "#" ++ u.components.fragment)

def TheiaURI.toComponents (u : TheiaURI) : UriComponents := u.components

def TheiaURI.fromComponents (c : UriComponents) : TheiaURI := ⟨c⟩

/-- JavaScript evaluation of `uri.toString()` when `uri` is a plain
`UriComponents` object (an interface value, not a `URI` class instance):
the only `toString` in its prototype chain is `Object.prototype.toString`,
which returns the constant string below, whatever the components are. -/
def UriComponents.jsToString (_ : UriComponents) : String :=
  "[object Object]"

/-! ## Canonical URI provider registration
(workspace-main.ts, lines 174, 390-411)

`$registerCanonicalUriProvider` stores in `canonicalUriProviders` the
disposable returned by `CanonicalUriService.registerCanonicalUriProvider`.
The service itself lives in `@theia/workspace` (not under src); its
duplicate guard is modelled from the spec.  Disposing the returned
disposable removes the provider from the service again. -/

/-- Modelled from the spec: `CanonicalUriService.registerCanonicalUriProvider`
(the service class is not under src).  The spec states the canonical-URI
provider path is "guarded against double-registration", so registering a
scheme that is already present fails and leaves the service unchanged;
otherwise the scheme is added. -/
def CanonicalUriService.registerCanonicalUriProvider (service : List String)
    (scheme : String) : Except String (List String) :=
  if service.contains scheme then
    Except.error ("A canonicalUriProvider is already registered for scheme " ++ scheme)
  else
    Except.ok (scheme :: service)

/-- The canonical-URI registration state of `WorkspaceMainImpl`:
the schemes registered in the (spec-modelled) `CanonicalUriService`,
and the keys of the impl-side `canonicalUriProviders` map (whose values
are the service's disposables). -/
structure CanonicalUriState where
  service : List String
  canonicalUriProviders : List String
deriving DecidableEq, Repr

/-- Embedding of `WorkspaceMainImpl.$registerCanonicalUriProvider`:
the service registration is evaluated first (it is the argument of
`Map.set`); if it throws, the impl-side map is never touched. -/
def registerCanonicalUriProviderImpl (st : CanonicalUriState)
    (scheme : String) : Except String CanonicalUriState :=
  match CanonicalUriService.registerCanonicalUriProvider st.service scheme with
  | Except.error e => Except.error e
  | Except.ok svc =>
    Except.ok { service := svc,
                canonicalUriProviders := scheme :: st.canonicalUriProviders }

/-- Embedding of `WorkspaceMainImpl.$unregisterCanonicalUriProvider`:
when the scheme is present, delete it from the map and dispose the stored
disposable (which removes the scheme from the service again); when it is
absent, only `console.warn` — the Bool result records whether the warning
was emitted. -/
def unregisterCanonicalUriProviderImpl (st : CanonicalUriState)
    (scheme : String) : CanonicalUriState × Bool :=
  if st.canonicalUriProviders.contains scheme then
    ({ service := st.service.erase scheme,
       canonicalUriProviders := st.canonicalUriProviders.erase scheme }, false)
  else
    (st, true)

/-! ## Notebook document listener bookkeeping
(notebook-documents-main.ts, lines 39, 59-140)

`documentEventListenersMapping` maps `notebook.uri.toString()` to the
`DisposableCollection` holding that notebook's content-change listener
(listeners are identified by a number; `disposed` records which listener
collections have been disposed).  `handleNotebooksAdded` receives the
notebook models (embedded as their URI paired with the listener created
for them); `handleNotebooksRemoved` receives plain `UriComponents`. -/

structure DocumentEventListeners where
  mapping : List (String × Nat)
  disposed : List Nat
deriving DecidableEq, Repr

/-- JS `Map.set`: overwrite the entry if the key is present, otherwise
append a new entry. -/
def mapSet (m : List (String × Nat)) (k : String) (v : Nat) :
    List (String × Nat) :=
  if (m.lookup k).isSome then
    m.map (fun p => if p.1 == k then (k, v) else p)
  else
    m ++ [(k, v)]

/-- Embedding of `NotebookDocumentsMainImpl.handleNotebooksAdded`:
for each notebook, subscribe a content-change listener and store it in
the mapping under `notebook.uri.toString()`. -/
def handleNotebooksAdded (st : DocumentEventListeners)
    (notebooks : List (TheiaURI × Nat)) : DocumentEventListeners :=
  { st with
    mapping := notebooks.foldl
      (fun m nb => mapSet m nb.1.toString nb.2) st.mapping }

/-- Embedding of `NotebookDocumentsMainImpl.handleNotebooksRemoved`:
for each `uri : UriComponents`,
`this.documentEventListenersMapping.get(uri.toString())?.dispose()` then
`delete(uri.toString())` — where `uri.toString()` is the JS evaluation on
a plain `UriComponents` object, `UriComponents.jsToString`. -/
def handleNotebooksRemoved (st : DocumentEventListeners)
    (uris : List UriComponents) : DocumentEventListeners :=
  uris.foldl
    (fun s u =>
      let key := UriComponents.jsToString u
      { mapping := s.mapping.filter (fun p => !(p.1 == key)),
        disposed :=
          match s.mapping.lookup key with
          | some id => s.disposed ++ [id]
          | none => s.disposed })
    st

/-! ## Notebook create / open / save
(notebook-documents-main.ts, lines 142-175)

Each method is embedded as its result paired with the trace of calls it
makes on the `NotebookModelResolverService` and on the references that
service hands out. -/

inductive NotebookResolverCall where
  | resolveUntitledResource (viewType : String)
  | resolve (uri : String)
  | save (uri : String)
  | disposeRef (uri : String)
deriving DecidableEq, Repr

/-- Embedding of `NotebookDocumentsMainImpl.$tryCreateNotebook`:
`resolveUntitledResource` is called with the view type and answers a
reference whose URI is `untitledUri` (an input of the environment); the
method reports the new notebook dirty and returns `ref.uri.toComponents()`.
The `$acceptDirtyStateChanged` proxy call is not part of the trace, which
records resolver-service interactions only. -/
def tryCreateNotebook (untitledUri : TheiaURI) (viewType : String) :
    UriComponents × List NotebookResolverCall :=
  (untitledUri.toComponents,
   [NotebookResolverCall.resolveUntitledResource viewType])

/-- Embedding of `NotebookDocumentsMainImpl.$tryOpenNotebook`: it only
converts the given components through `URI.fromComponents` and back, and
calls nothing on the resolver service. -/
def tryOpenNotebook (uriComponents : UriComponents) :
    UriComponents × List NotebookResolverCall :=
  ((TheiaURI.fromComponents uriComponents).toComponents, [])

/-- Embedding of `NotebookDocumentsMainImpl.$trySaveNotebook`: resolve the
reference for the URI, save it, dispose it, and return `true`. -/
def trySaveNotebook (uriComponents : UriComponents) :
    Bool × List NotebookResolverCall :=
  let uri := TheiaURI.fromComponents uriComponents
  (true,
   [NotebookResolverCall.resolve uri.toString,
    NotebookResolverCall.save uri.toString,
    NotebookResolverCall.disposeRef uri.toString])

/-! ## Text search (workspace-main.ts, lines 307-367)

`$findTextInFiles` is a fold over the stream of `onResult` callbacks.
Each callback input carries the token's `isCancellationRequested` value
at that moment and the `result.matches` array (matches identified by
numbers; an empty list embeds a result with no matches).  The JS
`while` loop splicing off the last match is `truncateMatches`.
`options.maxResults ? options.maxResults : 150` treats `0` and
`undefined` alike (both falsy). -/

structure TextSearchState where
  matchCount : Nat
  canceledRequest : Bool
deriving DecidableEq, Repr

structure OnResultInput where
  tokenCancellationRequested : Bool
  resultMatches : List Nat
deriving DecidableEq, Repr

/-- Embedding of the truncation loop
`while ((matches + result.matches.length) > maxHits)
   result.matches.splice(result.matches.length - 1, 1)`.
On `[]` the loop condition can only still hold when `matchCount > maxHits`,
a state the search never reaches (`matchCount` stays at most `maxHits`);
the JS loop would then spin forever, the embedding returns `[]`. -/
def truncateMatches (matchCount maxHits : Nat) : List Nat → List Nat
  | [] => []
  | m :: ms =>
    if maxHits < matchCount + (m :: ms).length then
      truncateMatches matchCount maxHits (m :: ms).dropLast
    else
      m :: ms
termination_by l => l.length
decreasing_by simp [List.length_dropLast]

/-- Embedding of the `onResult` callback body: skip everything once
`canceledRequest` is set; a cancelled token cancels the search and sets
`canceledRequest`; otherwise a result with a non-empty `matches` array is
truncated to the cap, delivered through `$onTextSearchResult` (the
`Option` output, present even when truncation emptied the array), and
counted. -/
def onResult (maxHits : Nat) (st : TextSearchState) (input : OnResultInput) :
    TextSearchState × Option (List Nat) :=
  if st.canceledRequest then
    (st, none)
  else if input.tokenCancellationRequested then
    ({ st with canceledRequest := true }, none)
  else if input.resultMatches.length != 0 then
    let delivered := truncateMatches st.matchCount maxHits input.resultMatches
    ({ st with matchCount := st.matchCount + delivered.length }, some delivered)
  else
    (st, none)

/-- One fold step of the search: run `onResult` and append the delivered
batch, if any, to the list of delivered batches. -/
def onResultStep (maxHits : Nat)
    (acc : TextSearchState × List (List Nat)) (input : OnResultInput) :
    TextSearchState × List (List Nat) :=
  match onResult maxHits acc.1 input with
  | (st, some d) => (st, acc.2 ++ [d])
  | (st, none) => (st, acc.2)

/-- The stream of `onResult` callbacks of one `$findTextInFiles` request,
starting from `matches = 0` and `canceledRequest = false`. -/
def runTextSearch (maxHits : Nat) (inputs : List OnResultInput) :
    TextSearchState × List (List Nat) :=
  inputs.foldl (onResultStep maxHits) (⟨0, false⟩, [])

/-- Embedding of `options.maxResults ? options.maxResults : 150`:
`undefined` and `0` are both falsy in JS, so both select the default. -/
def effectiveMaxHits (maxResults : Option Nat) : Nat :=
  match maxResults with
  | some n => if n = 0 then 150 else n
  | none => 150

/-- Embedding of `$findTextInFiles` as observed through its callbacks:
the batches delivered via `$onTextSearchResult` and the `limitHit` flag
the promise resolves with in `onDone` (`maxHits <= matches`). -/
def findTextInFiles (maxResults : Option Nat) (inputs : List OnResultInput) :
    List (List Nat) × Bool :=
  let maxHits := effectiveMaxHits maxResults
  let r := runTextSearch maxHits inputs
  (r.2, decide (maxHits ≤ r.1.matchCount))

/-- Whether this `onResult` call enters the truncation loop at least once,
i.e. delivers a batch truncated to stay within the cap. -/
def stepTruncates (maxHits : Nat) (st : TextSearchState)
    (input : OnResultInput) : Bool :=
  !st.canceledRequest && !input.tokenCancellationRequested &&
    (input.resultMatches.length != 0) &&
    decide (maxHits < st.matchCount + input.resultMatches.length)

/-- Fold step tracking whether any delivered batch was truncated. -/
def truncationStep (maxHits : Nat) (acc : TextSearchState × Bool)
    (input : OnResultInput) : TextSearchState × Bool :=
  ((onResult maxHits acc.1 input).1,
   acc.2 || stepTruncates maxHits acc.1 input)

/-- Whether any batch of the request was truncated by the cap. -/
def anyTruncation (maxHits : Nat) (inputs : List OnResultInput) : Bool :=
  (inputs.foldl (truncationStep maxHits) (⟨0, false⟩, false)).2

/-! ## Notebook change-event translation
(notebook-documents-main.ts, lines 59-133)

The source event union (defined in `@theia/notebook/lib/common`, outside
src) is embedded with exactly the variants the translation `switch`
distinguishes; payload types carry opaque data.  The `NotebookDto.to...Dto`
converters live in `notebook-dto.ts` (outside src) and are taken as
parameters. -/

structure NotebookCellData where
  handle : Nat
  source : String
deriving DecidableEq, Repr

structure NotebookCellDto where
  handle : Nat
  source : String
deriving DecidableEq, Repr

structure CellOutputData where
  outputId : String
deriving DecidableEq, Repr

structure CellOutputDto where
  outputId : String
deriving DecidableEq, Repr

structure CellOutputItemData where
  mime : String
deriving DecidableEq, Repr

structure CellOutputItemDto where
  mime : String
deriving DecidableEq, Repr

abbrev NotebookMetadata := List (String × String)

/-- One `ModelChange` splice: `{ start, deleteCount, newItems }`. -/
structure NotebookCellSplice (cell : Type) where
  start : Nat
  deleteCount : Nat
  newItems : List cell
deriving DecidableEq, Repr

/-- The notebook content-change event union, one variant per
`NotebookCellsChangeType` case the translation switch handles. -/
inductive NotebookContentChangedEvent where
  | modelChange (changes : List (NotebookCellSplice NotebookCellData))
  | move (index length newIdx : Nat)
  | output (index : Nat) (outputs : List CellOutputData)
  | outputItem (index : Nat) (outputId : String)
      (outputItems : List CellOutputItemData) (append : Bool)
  | changeCellLanguage (index : Nat) (language : String)
  | changeCellContent (index : Nat)
  | changeCellMetadata (index : Nat) (metadata : NotebookMetadata)
  | changeCellInternalMetadata (index : Nat) (internalMetadata : NotebookMetadata)
  | changeDocumentMetadata (metadata : NotebookMetadata)
deriving DecidableEq, Repr

/-- The wire representation of one event inside
`NotebookCellsChangedEventDto.rawEvents`.  The four simple kinds
(language / content / cell-metadata / cell-internal-metadata changes)
are pushed raw (`eventDto.rawEvents.push(e)`), embedded by `passthrough`. -/
inductive NotebookRawEventDto where
  | modelChange (changes : List (NotebookCellSplice NotebookCellDto))
  | move (index length newIdx : Nat)
  | output (index : Nat) (outputs : List CellOutputDto)
  | outputItem (index : Nat) (outputId : String)
      (outputItems : List CellOutputItemDto) (append : Bool)
  | passthrough (e : NotebookContentChangedEvent)
  | changeDocumentMetadata (metadata : NotebookMetadata)
deriving DecidableEq, Repr

/-- The `NotebookDto` converters (external to src), as parameters. -/
structure NotebookDtoConverters where
  toNotebookCellDto : NotebookCellData → NotebookCellDto
  toNotebookOutputDto : CellOutputData → CellOutputDto
  toNotebookOutputItemDto : CellOutputItemData → CellOutputItemDto

/-- Embedding of the translation `switch`: each case of the loop body
pushes exactly one wire event for the current source event. -/
def translateNotebookEvent (c : NotebookDtoConverters) :
    NotebookContentChangedEvent → NotebookRawEventDto
  | NotebookContentChangedEvent.modelChange changes =>
    NotebookRawEventDto.modelChange
      (changes.map (fun diff =>
        { start := diff.start, deleteCount := diff.deleteCount,
          newItems := diff.newItems.map c.toNotebookCellDto }))
  | NotebookContentChangedEvent.move i l n => NotebookRawEventDto.move i l n
  | NotebookContentChangedEvent.output i outs =>
    NotebookRawEventDto.output i (outs.map c.toNotebookOutputDto)
  | NotebookContentChangedEvent.outputItem i oid items app =>
    NotebookRawEventDto.outputItem i oid
      (items.map c.toNotebookOutputItemDto) app
  | e@(NotebookContentChangedEvent.changeCellLanguage _ _) =>
    NotebookRawEventDto.passthrough e
  | e@(NotebookContentChangedEvent.changeCellContent _) =>
    NotebookRawEventDto.passthrough e
  | e@(NotebookContentChangedEvent.changeCellMetadata _ _) =>
    NotebookRawEventDto.passthrough e
  | e@(NotebookContentChangedEvent.changeCellInternalMetadata _ _) =>
    NotebookRawEventDto.passthrough e
  | NotebookContentChangedEvent.changeDocumentMetadata m =>
    NotebookRawEventDto.changeDocumentMetadata m

def NotebookContentChangedEvent.isDocumentMetadataChange :
    NotebookContentChangedEvent → Bool
  | NotebookContentChangedEvent.changeDocumentMetadata _ => true
  | _ => false

structure NotebookCellsChangedEventDto where
  versionId : Nat
  rawEvents : List NotebookRawEventDto
deriving DecidableEq, Repr

/-- The `$acceptModelChanged` call the listener makes for one batch. -/
structure AcceptModelChangedCall where
  eventDto : NotebookCellsChangedEventDto
  isDirty : Bool
  newMetadata : Option NotebookMetadata
deriving DecidableEq, Repr

/-- Embedding of the listener body installed by `handleNotebooksAdded`:
build the DTO (versionId 1; the for/switch pushes one wire event per
event, in order, hence `List.map`), look for a `ChangeDocumentMetadata`
event with `events.find`, and call `$acceptModelChanged` with the current
dirty flag and — only when such an event was found — the notebook's
current metadata. -/
def handleNotebookContentChange (c : NotebookDtoConverters)
    (events : List NotebookContentChangedEvent)
    (currentMetadata : NotebookMetadata) (isDirty : Bool) :
    AcceptModelChangedCall :=
  let eventDto : NotebookCellsChangedEventDto :=
    { versionId := 1, rawEvents := events.map (translateNotebookEvent c) }
  let hasDocumentMetadataChangeEvent :=
    events.find? (fun e => e.isDocumentMetadataChange)
  { eventDto := eventDto,
    isDirty := isDirty,
    newMetadata :=
      if hasDocumentMetadataChangeEvent.isSome then some currentMetadata
      else none }

/-! ## Notebook cell resource resolver
(notebook-cell-resource-resolver.ts)

`CellUri` and `NotebookService` live outside src; `CellUri.parse` and
`NotebookService.getNotebookEditorModel` are taken as parameters, and the
scheme constant is a fixed string (its exact value is immaterial). -/

/-- The cell URI scheme constant `CellUri.scheme`
(defined in `@theia/notebook/lib/common`, outside src). -/
def cellUriScheme : String := "vscode-notebook-cell"

/-- What `CellUri.parse` yields on success: the notebook URI (as a
string key) and the cell handle. -/
structure CellUriParts where
  notebook : String
  handle : Nat
deriving DecidableEq, Repr

structure NotebookCellModel where
  handle : Nat
  source : String
deriving DecidableEq, Repr

structure NotebookEditorModel where
  cells : List NotebookCellModel
deriving DecidableEq, Repr

structure NotebookCellResource where
  uri : TheiaURI
  cell : NotebookCellModel
deriving DecidableEq, Repr

/-- Embedding of `NotebookCellResource.readContents`: resolves to the
cell's source text. -/
def NotebookCellResource.readContents (r : NotebookCellResource) : String :=
  r.cell.source

/-- Embedding of `NotebookCellResourceResolver.resolve`: check the scheme,
parse the cell URI, look up the notebook model, find the cell by handle;
each failure throws, success returns the cell resource. -/
def notebookCellResolve
    (parse : TheiaURI → Option CellUriParts)
    (getNotebookEditorModel : String → Option NotebookEditorModel)
    (uri : TheiaURI) : Except String NotebookCellResource :=
  if uri.scheme != cellUriScheme then
    Except.error ("Cannot resolve cell uri with scheme '" ++ uri.scheme ++ "'")
  else
    match parse uri with
    | none => Except.error ("cant parse uri " ++ uri.toString)
    | some parsedUri =>
      match getNotebookEditorModel parsedUri.notebook with
      | none =>
        Except.error ("no notebook found for uri " ++ parsedUri.notebook)
      | some notebookModel =>
        match notebookModel.cells.find?
            (fun cell => cell.handle == parsedUri.handle) with
        | none =>
          Except.error ("no cell found with hanlde in " ++ parsedUri.notebook)
        | some notebookCellModel =>
          Except.ok ⟨uri, notebookCellModel⟩

/-! ## Theorems -/

theorem isAnyRootChanged_some_false_iff :
    ∀ (old roots : List String),
      isAnyRootChanged (some old) roots = false ↔ old = roots := by
  intro old
  induction old with
  | nil =>
    intro roots
    cases roots with
    | nil => simp [isAnyRootChanged]
    | cons r rs => simp [isAnyRootChanged]
  | cons o os ih =>
    intro roots
    cases roots with
    | nil => simp [isAnyRootChanged]
    | cons r rs =>
      by_cases hlen : os.length = rs.length
      · have h1 : isAnyRootChanged (some (o :: os)) (r :: rs) =
            ((o != r) || (os.zip rs).any (fun p => p.1 != p.2)) := by
          simp [isAnyRootChanged, hlen]
        have h2 : ((os.zip rs).any (fun p => p.1 != p.2) = false) ↔ os = rs := by
          have := ih rs
          simpa [isAnyRootChanged, hlen] using this
        rw [h1]
        simp only [Bool.or_eq_false_iff, bne_eq_false_iff_eq]
        constructor
        · rintro ⟨ho, hz⟩
          exact by rw [ho, (h2.mp hz)]
        · intro h
          cases h
          exact ⟨rfl, h2.mpr rfl⟩
      · have h1 : isAnyRootChanged (some (o :: os)) (r :: rs) = true := by
          simp [isAnyRootChanged]
          omega
        rw [h1]
        constructor
        · intro h; cases h
        · intro h
          apply absurd (congrArg List.length h)
          simp
          omega

/-- C5: processWorkspaceFoldersChanged sends the `$onWorkspaceFoldersChanged`
notification (and stores the new roots) exactly when the new root list
differs from the previously stored one in length or in some positional
element (i.e. when the lists are unequal); an element-by-element identical
list suppresses the notification and leaves the stored roots unchanged. -/
theorem c5_workspace_folders_notification (prev roots : List String) :
    ((processWorkspaceFoldersChanged (some prev) roots).2 = true ↔ prev ≠ roots) ∧
    (prev = roots →
      processWorkspaceFoldersChanged (some prev) roots = (some prev, false)) ∧
    (prev ≠ roots →
      (processWorkspaceFoldersChanged (some prev) roots).1 = some roots) := by
  have h := isAnyRootChanged_some_false_iff prev roots
  by_cases hc : isAnyRootChanged (some prev) roots = false
  · have heq : prev = roots := h.mp hc
    subst heq
    simp [processWorkspaceFoldersChanged, hc]
  · have hne : prev ≠ roots := fun he => hc (h.mpr he)
    simp [processWorkspaceFoldersChanged, hc, hne]

theorem c5_witness :
    ((processWorkspaceFoldersChanged (some ["file:///a"])
        ["file:///a", "file:///b"]).2 = true) ∧
    (processWorkspaceFoldersChanged (some ["file:///a"]) ["file:///a"]
        = (some ["file:///a"], false)) :=
  ⟨(c5_workspace_folders_notification ["file:///a"]
      ["file:///a", "file:///b"]).1.mpr (by decide),
   (c5_workspace_folders_notification ["file:///a"] ["file:///a"]).2.1 rfl⟩

/-- C6: once a scheme registered successfully in
`TextContentResourceResolver`, a second `registerContentProvider` for the
same scheme throws and leaves the provider map unchanged (the first
registration still answers lookups); and `unregisterContentProvider` for
a scheme that was never registered throws. -/
theorem c6_content_provider_registration_guards (providers : ProviderMap)
    (scheme : String) (proxy proxy2 : Nat) (p1 : ProviderMap)
    (hreg : registerContentProvider providers scheme proxy = Except.ok p1) :
    (∃ msg, registerContentProvider p1 scheme proxy2 = Except.error msg) ∧
    (stateAfter p1 (registerContentProvider p1 scheme proxy2) = p1) ∧
    (p1.lookup scheme = some proxy) ∧
    (∀ s, (providers.lookup s).isNone →
      ∃ msg, unregisterContentProvider providers s = Except.error msg) := by
  unfold registerContentProvider at hreg
  by_cases h : (providers.lookup scheme).isSome
  · simp [h] at hreg
  · simp [h] at hreg
    subst hreg
    have hlook : List.lookup scheme ((scheme, proxy) :: providers) = some proxy := by
      simp [List.lookup]
    refine ⟨?_, ?_, hlook, ?_⟩
    · simp [registerContentProvider, hlook]
    · simp [registerContentProvider, hlook, stateAfter]
    · intro s hs
      simp [unregisterContentProvider, Option.isNone_iff_eq_none.mp hs]

theorem c6_witness :
    (∃ msg, registerContentProvider [("s", 1)] "s" 2 = Except.error msg) ∧
    (stateAfter [("s", 1)] (registerContentProvider [("s", 1)] "s" 2)
        = [("s", 1)]) ∧
    (List.lookup "s" [("s", 1)] = some 1) ∧
    (∀ s, ((List.lookup s ([] : ProviderMap)).isNone) →
      ∃ msg, unregisterContentProvider [] s = Except.error msg) :=
  c6_content_provider_registration_guards [] "s" 1 2 [("s", 1)] rfl

/-- C8: the two per-scheme registries fail as the claim states:
the text-content-provider path throws both on duplicate registration and
on unregistering an absent scheme, while the canonical-URI path is
guarded against double-registration (through the service guard) but only
warns, leaving all state unchanged, when unregistering an absent scheme. -/
theorem c8_registry_failure_modes (providers : ProviderMap)
    (st : CanonicalUriState) (scheme : String) (proxy : Nat) :
    ((providers.lookup scheme).isSome →
      ∃ msg, registerContentProvider providers scheme proxy = Except.error msg) ∧
    ((providers.lookup scheme).isSome = false →
      ∃ msg, unregisterContentProvider providers scheme = Except.error msg) ∧
    (st.service.contains scheme →
      ∃ msg, registerCanonicalUriProviderImpl st scheme = Except.error msg) ∧
    (st.canonicalUriProviders.contains scheme = false →
      unregisterCanonicalUriProviderImpl st scheme = (st, true)) := by
  refine ⟨?_, ?_, ?_, ?_⟩ <;> intro h
  · simp [registerContentProvider, h]
  · simp [unregisterContentProvider, h]
  · have h2 : scheme ∈ st.service := by simpa using h
    simp [registerCanonicalUriProviderImpl,
      CanonicalUriService.registerCanonicalUriProvider, h2]
  · have h2 : scheme ∉ st.canonicalUriProviders := by simpa using h
    simp [unregisterCanonicalUriProviderImpl, h2]

theorem c8_witness :
    (∃ msg, registerContentProvider [("s", 1)] "s" 2 = Except.error msg) ∧
    (∃ msg, unregisterContentProvider [("s", 1)] "t" = Except.error msg) ∧
    (∃ msg, registerCanonicalUriProviderImpl ⟨["c"], ["c"]⟩ "c"
        = Except.error msg) ∧
    (unregisterCanonicalUriProviderImpl ⟨["c"], ["c"]⟩ "d"
        = (⟨["c"], ["c"]⟩, true)) :=
  ⟨(c8_registry_failure_modes [("s", 1)] ⟨["c"], ["c"]⟩ "s" 2).1 (by decide),
   (c8_registry_failure_modes [("s", 1)] ⟨["c"], ["c"]⟩ "t" 2).2.1 (by decide),
   (c8_registry_failure_modes [("s", 1)] ⟨["c"], ["c"]⟩ "c" 2).2.2.1 (by decide),
   (c8_registry_failure_modes [("s", 1)] ⟨["c"], ["c"]⟩ "d" 2).2.2.2 (by decide)⟩

/-- C3 counterexample: the claim fails at the concrete input s = "".
After `setContent("")` the cache holds the empty string, which is falsy
in JS, so the next `readContents` neither returns the set content nor
clears the cache: with the remote side answering "X" it returns "X" and
leaves the cache holding `some ""`. -/
theorem c3_counterexample :
    ¬ ((((TextContentResource.mk none).setContent "").readContents
          (some "X")).2 = "" ∧
       (((TextContentResource.mk none).setContent "").readContents
          (some "X")).1.cache = none) := by
  decide

/-- C3 amended: for every NON-EMPTY string s, after `setContent s` the
next `readContents` returns exactly s and clears the cache, and a second
`readContents` without an intervening `setContent` returns the value
fetched through the remote `$provideTextDocumentContent` call. -/
theorem c3_amended_read_after_set (r : TextContentResource) (s : String)
    (remote remote2 : Option String) (hs : s ≠ "") :
    (r.setContent s).readContents remote = (⟨none⟩, s) ∧
    (((r.setContent s).readContents remote).1.readContents remote2
        = (⟨none⟩, remote2.getD "")) := by
  have hbeq : (s == "") = false := by simpa using hs
  constructor <;>
    simp [TextContentResource.setContent, TextContentResource.readContents,
      jsStringTruthy, hbeq]

theorem c3_witness :
    (((TextContentResource.mk none).setContent "a").readContents (some "X")
        = (⟨none⟩, "a")) ∧
    ((((TextContentResource.mk none).setContent "a").readContents
        (some "X")).1.readContents (some "Y") = (⟨none⟩, "Y")) :=
  c3_amended_read_after_set ⟨none⟩ "a" (some "X") (some "Y") (by decide)

/-- C10: readContents never resolves to undefined (its result type is a
plain string): when the cache is empty and the remote
`$provideTextDocumentContent` answers null/undefined (`none`), it
resolves to the empty string, leaving the state unchanged. -/
theorem c10_read_contents_empty_fallback (r : TextContentResource)
    (h : r.cache = none) :
    r.readContents none = (r, "") := by
  simp [TextContentResource.readContents, jsStringTruthy, h]

theorem c10_witness :
    TextContentResource.readContents ⟨none⟩ none = (⟨none⟩, "") :=
  c10_read_contents_empty_fallback ⟨none⟩ rfl

/-- C9: notebookCellResolve rejects exactly when the URI scheme is not the
cell scheme, or the cell URI does not parse, or no notebook model exists
for the parsed notebook URI, or no cell with the parsed handle exists in
that notebook; otherwise it returns a resource whose readContents is the
found cell's source text. -/
theorem c9_notebook_cell_resolve_spec
    (parse : TheiaURI → Option CellUriParts)
    (getNotebookEditorModel : String → Option NotebookEditorModel)
    (uri : TheiaURI) :
    ((∃ msg, notebookCellResolve parse getNotebookEditorModel uri
        = Except.error msg) ↔
      (uri.scheme ≠ cellUriScheme ∨
       parse uri = none ∨
       (∃ p, parse uri = some p ∧ getNotebookEditorModel p.notebook = none) ∨
       (∃ p m, parse uri = some p ∧
         getNotebookEditorModel p.notebook = some m ∧
         ∀ cell ∈ m.cells, cell.handle ≠ p.handle))) ∧
    (∀ res, notebookCellResolve parse getNotebookEditorModel uri
        = Except.ok res →
      ∃ p m cell, parse uri = some p ∧
        getNotebookEditorModel p.notebook = some m ∧
        m.cells.find? (fun c => c.handle == p.handle) = some cell ∧
        res.readContents = cell.source) := by
  by_cases hs : uri.scheme = cellUriScheme
  · rcases hp : parse uri with _ | p
    · have hE : notebookCellResolve parse getNotebookEditorModel uri
          = Except.error ("cant parse uri " ++ uri.toString) := by
        simp [notebookCellResolve, hs, hp]
      rw [hE]
      constructor
      · simp
      · intro res hres
        exact absurd hres (by simp)
    · rcases hm : getNotebookEditorModel p.notebook with _ | m
      · have hE : notebookCellResolve parse getNotebookEditorModel uri
            = Except.error ("no notebook found for uri " ++ p.notebook) := by
          simp [notebookCellResolve, hs, hp, hm]
        rw [hE]
        constructor
        · constructor
          · intro _
            exact Or.inr (Or.inr (Or.inl ⟨p, rfl, hm⟩))
          · intro _
            exact ⟨_, rfl⟩
        · intro res hres
          exact absurd hres (by simp)
      · rcases hf : m.cells.find? (fun c => c.handle == p.handle) with _ | cell
        · have hE : notebookCellResolve parse getNotebookEditorModel uri
              = Except.error ("no cell found with hanlde in " ++ p.notebook) := by
            simp only [notebookCellResolve, hs, hp, hm, hf]
            simp
          rw [hE]
          constructor
          · constructor
            · intro _
              refine Or.inr (Or.inr (Or.inr ⟨p, m, rfl, hm, ?_⟩))
              intro cell hmem
              have := List.find?_eq_none.mp hf cell hmem
              simpa using this
            · intro _
              exact ⟨_, rfl⟩
          · intro res hres
            exact absurd hres (by simp)
        · have hE : notebookCellResolve parse getNotebookEditorModel uri
              = Except.ok ⟨uri, cell⟩ := by
            simp only [notebookCellResolve, hs, hp, hm, hf]
            simp
          rw [hE]
          constructor
          · constructor
            · rintro ⟨msg, hmsg⟩
              exact absurd hmsg (by simp)
            · rintro (h1 | h2 | ⟨q, hq, hm2⟩ | ⟨q, m2, hq, hm2, hall⟩)
              · exact absurd hs h1
              · exact absurd h2 (by simp)
              · injection hq with hq
                subst hq
                rw [hm] at hm2
                exact absurd hm2 (by simp)
              · injection hq with hq
                subst hq
                rw [hm] at hm2
                injection hm2 with hm2
                subst hm2
                have hmem := List.mem_of_find?_eq_some hf
                have hpred := List.find?_some hf
                have hhandle : cell.handle = p.handle := by simpa using hpred
                exact absurd hhandle (hall cell hmem)
          · intro res hres
            injection hres with hres
            subst hres
            exact ⟨p, m, cell, rfl, hm, hf, rfl⟩
  · have hE : notebookCellResolve parse getNotebookEditorModel uri
        = Except.error ("Cannot resolve cell uri with scheme '" ++ uri.scheme ++ "'") := by
      simp [notebookCellResolve, hs]
    rw [hE]
    constructor
    · constructor
      · intro _
        exact Or.inl hs
      · intro _
        exact ⟨_, rfl⟩
    · intro res hres
      exact absurd hres (by simp)

theorem c9_witness :
    ∃ p m cell,
      (some (CellUriParts.mk "file:///nb.ipynb" 7) = some p) ∧
      (some (NotebookEditorModel.mk [⟨7, "print(1)"⟩]) = some m) ∧
      (m.cells.find? (fun c => c.handle == p.handle) = some cell) ∧
      (NotebookCellResource.readContents
        ⟨⟨⟨cellUriScheme, "", "/x", "", ""⟩⟩, ⟨7, "print(1)"⟩⟩ = cell.source) :=
  (c9_notebook_cell_resolve_spec
      (fun _ => some (CellUriParts.mk "file:///nb.ipynb" 7))
      (fun _ => some (NotebookEditorModel.mk [⟨7, "print(1)"⟩]))
      ⟨⟨cellUriScheme, "", "/x", "", ""⟩⟩).2
    ⟨⟨⟨cellUriScheme, "", "/x", "", ""⟩⟩, ⟨7, "print(1)"⟩⟩
    (by simp [notebookCellResolve, TheiaURI.scheme, List.find?])

/-- C2: for one batch of notebook change events, the emitted DTO has one
wire event per input event in the same order (its i-th raw event is the
translation of the i-th input event), and the `$acceptModelChanged` call
carries the current metadata snapshot exactly when some event of the
batch is a document-metadata change, and `undefined` otherwise. -/
theorem c2_notebook_change_batch (c : NotebookDtoConverters)
    (events : List NotebookContentChangedEvent)
    (currentMetadata : NotebookMetadata) (isDirty : Bool) :
    ((handleNotebookContentChange c events currentMetadata
        isDirty).eventDto.rawEvents.length = events.length) ∧
    (∀ i : Nat,
      (handleNotebookContentChange c events currentMetadata
          isDirty).eventDto.rawEvents[i]?
        = (events[i]?).map (translateNotebookEvent c)) ∧
    ((handleNotebookContentChange c events currentMetadata
        isDirty).newMetadata = some currentMetadata ↔
      ∃ e ∈ events, e.isDocumentMetadataChange = true) ∧
    ((handleNotebookContentChange c events currentMetadata
        isDirty).newMetadata = none ↔
      ∀ e ∈ events, e.isDocumentMetadataChange = false) := by
  refine ⟨by simp [handleNotebookContentChange], ?_, ?_, ?_⟩
  · intro i
    simp [handleNotebookContentChange]
  · by_cases h : (events.find?
        (fun e => e.isDocumentMetadataChange)).isSome
    · simp only [handleNotebookContentChange, h, if_true]
      simp only [true_iff, eq_self_iff_true]
      simpa using List.find?_isSome.mp h
    · simp only [handleNotebookContentChange, h, if_false]
      constructor
      · intro hfalse
        exact absurd hfalse (by simp)
      · intro ⟨e, hmem, hdoc⟩
        exact absurd (List.find?_isSome.mpr ⟨e, hmem, hdoc⟩) h
  · by_cases h : (events.find?
        (fun e => e.isDocumentMetadataChange)).isSome
    · simp only [handleNotebookContentChange, h, if_true]
      constructor
      · intro hsome
        exact absurd hsome (by simp)
      · intro hall
        obtain ⟨e, hmem, hdoc⟩ := List.find?_isSome.mp h
        exact absurd hdoc (by simp [hall e hmem])
    · simp only [handleNotebookContentChange, h, if_false]
      constructor
      · intro _ e hmem
        have hnone : events.find? (fun e => e.isDocumentMetadataChange) = none :=
          Option.not_isSome_iff_eq_none.mp h
        have := List.find?_eq_none.mp hnone e hmem
        simpa using this
      · intro _
        rfl

theorem c2_witness :
    (handleNotebookContentChange
        ⟨fun cell => ⟨cell.handle, cell.source⟩,
         fun o => ⟨o.outputId⟩, fun it => ⟨it.mime⟩⟩
        [NotebookContentChangedEvent.changeCellContent 0,
         NotebookContentChangedEvent.changeDocumentMetadata [("k", "v")]]
        [("m", "1")] true).newMetadata = some [("m", "1")] :=
  (c2_notebook_change_batch _ _ _ _).2.2.1.mpr
    ⟨NotebookContentChangedEvent.changeDocumentMetadata [("k", "v")],
     by simp, rfl⟩

/-- C4 counterexample: the claim states that each of the three operations
delegates to the notebook model resolver service, but at this concrete
input `$tryOpenNotebook` completes with an empty resolver-call trace,
merely echoing the URI components through fromComponents/toComponents. -/
theorem c4_counterexample :
    (tryOpenNotebook ⟨"file", "", "/n.ipynb", "", ""⟩).2 = [] := rfl

/-- C4 amended: `$tryCreateNotebook` delegates to the resolver's
resolveUntitledResource and echoes the resulting reference's URI as
UriComponents; `$tryOpenNotebook` echoes the given components back
WITHOUT consulting the resolver; `$trySaveNotebook` delegates to the
resolver's resolve, returns `true` (not the identifier), and disposes
the resolved reference strictly after the save. -/
theorem c4_amended_delegation (untitledUri : TheiaURI) (viewType : String)
    (uc : UriComponents) :
    ((tryCreateNotebook untitledUri viewType).1 = untitledUri.toComponents ∧
     (tryCreateNotebook untitledUri viewType).2
        = [NotebookResolverCall.resolveUntitledResource viewType]) ∧
    ((tryOpenNotebook uc).1 = uc ∧ (tryOpenNotebook uc).2 = []) ∧
    ((trySaveNotebook uc).1 = true ∧
     (NotebookResolverCall.resolve (TheiaURI.fromComponents uc).toString)
        ∈ (trySaveNotebook uc).2 ∧
     (∃ i j : Nat, i < j ∧
       (trySaveNotebook uc).2[i]?
          = some (NotebookResolverCall.save (TheiaURI.fromComponents uc).toString) ∧
       (trySaveNotebook uc).2[j]?
          = some (NotebookResolverCall.disposeRef (TheiaURI.fromComponents uc).toString))) := by
  refine ⟨⟨rfl, rfl⟩, ⟨rfl, rfl⟩, rfl, ?_, ?_⟩
  · simp [trySaveNotebook]
  · exact ⟨1, 2, by omega, rfl, rfl⟩

/-- C7: the code does not do what the claim states.  A notebook added
under key `notebook.uri.toString()` (here "file:/nb.ipynb") is NOT
removed by a handleNotebooksRemoved call carrying that notebook's
UriComponents: the removal looks up `uri.toString()` on a plain
UriComponents object, which in JS is Object.prototype.toString, the
constant "[object Object]".  At this input the mapping still holds the
listener entry afterwards and nothing was disposed. -/
theorem c7_bug_removal_misses_entry :
    ((handleNotebooksRemoved
        (handleNotebooksAdded ⟨[], []⟩
          [(⟨⟨"file", "", "/nb.ipynb", "", ""⟩⟩, 0)])
        [TheiaURI.toComponents ⟨⟨"file", "", "/nb.ipynb", "", ""⟩⟩]).mapping.lookup
          (TheiaURI.toString ⟨⟨"file", "", "/nb.ipynb", "", ""⟩⟩) = some 0) ∧
    ((handleNotebooksRemoved
        (handleNotebooksAdded ⟨[], []⟩
          [(⟨⟨"file", "", "/nb.ipynb", "", ""⟩⟩, 0)])
        [TheiaURI.toComponents ⟨⟨"file", "", "/nb.ipynb", "", ""⟩⟩]).disposed = []) := by
  constructor <;>
    simp [handleNotebooksAdded, handleNotebooksRemoved, mapSet,
      TheiaURI.toString, TheiaURI.toComponents, UriComponents.jsToString,
      List.lookup]

theorem truncateMatches_eq (m k : Nat) : ∀ (l : List Nat),
    truncateMatches m k l = if m + l.length ≤ k then l else l.take (k - m) := by
  have H : ∀ (n : Nat) (l : List Nat), l.length ≤ n →
      truncateMatches m k l
        = if m + l.length ≤ k then l else l.take (k - m) := by
    intro n
    induction n with
    | zero =>
      intro l hl
      have hnil : l = [] := List.eq_nil_of_length_eq_zero (Nat.le_zero.mp hl)
      subst hnil
      simp [truncateMatches]
    | succ n ih =>
      intro l hl
      cases l with
      | nil => simp [truncateMatches]
      | cons x xs =>
        by_cases hcond : k < m + (x :: xs).length
        · have hstep : truncateMatches m k (x :: xs)
              = truncateMatches m k (x :: xs).dropLast := by
            rw [truncateMatches, if_pos hcond]
          rw [hstep]
          have hlen : (x :: xs).dropLast.length ≤ n := by
            simp at hl ⊢
            omega
          rw [ih _ hlen]
          by_cases h2 : m + (x :: xs).dropLast.length ≤ k
          · rw [if_pos h2, if_neg (by simp at hcond ⊢; omega)]
            have hk : k - m = (x :: xs).length - 1 := by
              simp at h2 hcond ⊢
              omega
            rw [hk]
            exact List.dropLast_eq_take _
          · rw [if_neg h2, if_neg (by simp at hcond ⊢; omega)]
            rw [List.dropLast_eq_take, List.take_take]
            have hmin : min (k - m) ((x :: xs).length - 1) = k - m := by
              simp at h2 ⊢
              omega
            rw [hmin]
        · rw [truncateMatches, if_neg hcond, if_pos (by omega)]
  intro l
  exact H l.length l (le_refl _)

/-- Case analysis for one `onResult` call from a state within the cap:
either nothing is delivered and the match count is unchanged, or a batch
is delivered that keeps the running count within the cap, reaching the
cap exactly when the batch was truncated. -/
theorem onResult_matchCount (k : Nat) (st : TextSearchState)
    (input : OnResultInput) (h1 : st.matchCount ≤ k) :
    (onResult k st input = (st, none)
      ∧ stepTruncates k st input = false) ∨
    (onResult k st input = ({ st with canceledRequest := true }, none)
      ∧ stepTruncates k st input = false) ∨
    (∃ d, onResult k st input
        = ({ st with matchCount := st.matchCount + d.length }, some d) ∧
      st.matchCount + d.length ≤ k ∧
      (stepTruncates k st input = true → st.matchCount + d.length = k)) := by
  by_cases hc : st.canceledRequest
  · exact Or.inl ⟨by simp [onResult, hc], by simp [stepTruncates, hc]⟩
  · by_cases ht : input.tokenCancellationRequested
    · exact Or.inr (Or.inl ⟨by simp [onResult, hc, ht],
        by simp [stepTruncates, hc, ht]⟩)
    · by_cases hm : input.resultMatches.length = 0
      · exact Or.inl ⟨by simp [onResult, hc, ht, hm],
          by simp [stepTruncates, hc, ht, hm]⟩
      · refine Or.inr (Or.inr
          ⟨truncateMatches st.matchCount k input.resultMatches, ?_, ?_, ?_⟩)
        · simp [onResult, hc, ht, hm]
        · rw [truncateMatches_eq]
          by_cases hcap : st.matchCount + input.resultMatches.length ≤ k
          · rw [if_pos hcap]
            exact hcap
          · rw [if_neg hcap]
            simp [List.length_take]
            omega
        · intro htr
          have hcap : k < st.matchCount + input.resultMatches.length := by
            simpa [stepTruncates, hc, ht, hm] using htr
          rw [truncateMatches_eq, if_neg (by omega)]
          simp [List.length_take]
          omega

/-- The joint invariant of the delivery fold and the truncation-tracking
fold: the running match count stays within the cap and equals the total
of the delivered batch lengths, the two folds agree on the state, and a
recorded truncation forces the count up to the cap. -/
theorem textSearch_fold_invariant (k : Nat) :
    ∀ (inputs : List OnResultInput) (st : TextSearchState)
      (del : List (List Nat)) (flag : Bool),
      st.matchCount ≤ k →
      (del.map List.length).sum = st.matchCount →
      (flag = true → k ≤ st.matchCount) →
      (inputs.foldl (onResultStep k) (st, del)).1.matchCount ≤ k ∧
      ((inputs.foldl (onResultStep k) (st, del)).2.map List.length).sum
        = (inputs.foldl (onResultStep k) (st, del)).1.matchCount ∧
      ((inputs.foldl (truncationStep k) (st, flag)).2 = true →
        k ≤ (inputs.foldl (onResultStep k) (st, del)).1.matchCount) := by
  intro inputs
  induction inputs with
  | nil =>
    intro st del flag h1 h2 h3
    exact ⟨h1, h2, h3⟩
  | cons input rest ih =>
    intro st del flag h1 h2 h3
    simp only [List.foldl_cons]
    rcases onResult_matchCount k st input h1 with
      ⟨hr, hts⟩ | ⟨hr, hts⟩ | ⟨d, hr, hle, hcap⟩
    · have e1 : onResultStep k (st, del) input = (st, del) := by
        simp [onResultStep, hr]
      have e2 : truncationStep k (st, flag) input = (st, flag) := by
        simp [truncationStep, hr, hts]
      rw [e1, e2]
      exact ih st del flag h1 h2 h3
    · have e1 : onResultStep k (st, del) input
          = ({ st with canceledRequest := true }, del) := by
        simp [onResultStep, hr]
      have e2 : truncationStep k (st, flag) input
          = ({ st with canceledRequest := true }, flag) := by
        simp [truncationStep, hr, hts]
      rw [e1, e2]
      exact ih _ del flag h1 h2 h3
    · have e1 : onResultStep k (st, del) input
          = ({ st with matchCount := st.matchCount + d.length }, del ++ [d]) := by
        simp [onResultStep, hr]
      have e2 : truncationStep k (st, flag) input
          = ({ st with matchCount := st.matchCount + d.length },
             flag || stepTruncates k st input) := by
        simp [truncationStep, hr]
      rw [e1, e2]
      apply ih
      · exact hle
      · simp [h2]
      · intro hor
        rcases Bool.or_eq_true_iff.mp hor with hf | hstp
        · exact le_trans (h3 hf) (Nat.le_add_right _ _)
        · exact le_of_eq (hcap hstp).symm

/-- C1 counterexample: the claim fails as stated at the concrete input
options.maxResults = 0 with a single one-match result.  The claimed cap
is then N = 0 ("options.maxResults when given"), but 0 is falsy in JS,
so the code caps at the default 150 and delivers 1 match, exceeding N. -/
theorem c1_counterexample :
    ¬ (((findTextInFiles (some 0)
          [⟨false, [5]⟩]).1.map List.length).sum ≤ 0) := by
  have h : findTextInFiles (some 0) [⟨false, [5]⟩] = ([[5]], false) := by
    simp [findTextInFiles, runTextSearch, onResultStep, onResult,
      effectiveMaxHits, truncateMatches]
  rw [h]
  simp

/-- C1 amended: with the hit cap N the code actually enforces —
options.maxResults when given and nonzero (a given 0 is falsy in JS and
falls back to the default 150), otherwise 150 — the total number of
matches delivered across all onResult callbacks never exceeds N, and if
any delivered batch was truncated to stay within the cap then the
promise resolves with limitHit = true. -/
theorem c1_amended_hit_cap (maxResults : Option Nat)
    (inputs : List OnResultInput) :
    (((findTextInFiles maxResults inputs).1.map List.length).sum
        ≤ effectiveMaxHits maxResults) ∧
    (anyTruncation (effectiveMaxHits maxResults) inputs = true →
      (findTextInFiles maxResults inputs).2 = true) := by
  obtain ⟨hle, hsum, hflag⟩ :=
    textSearch_fold_invariant (effectiveMaxHits maxResults) inputs
      ⟨0, false⟩ [] false (Nat.zero_le _) rfl (by simp)
  constructor
  · have hfst : (findTextInFiles maxResults inputs).1
        = (inputs.foldl (onResultStep (effectiveMaxHits maxResults))
            (⟨0, false⟩, [])).2 := by
      simp [findTextInFiles, runTextSearch]
    rw [hfst, hsum]
    exact hle
  · intro htr
    have hk := hflag (by simpa [anyTruncation] using htr)
    simp only [findTextInFiles, runTextSearch, decide_eq_true_eq]
    exact hk

theorem c1_witness :
    anyTruncation (effectiveMaxHits (some 2)) [⟨false, [1, 2, 3]⟩] = true ∧
    (findTextInFiles (some 2) [⟨false, [1, 2, 3]⟩]).2 = true :=
  ⟨by simp [anyTruncation, truncationStep, onResult, stepTruncates,
      effectiveMaxHits, truncateMatches],
   (c1_amended_hit_cap (some 2) [⟨false, [1, 2, 3]⟩]).2
     (by simp [anyTruncation, truncationStep, onResult, stepTruncates,
       effectiveMaxHits, truncateMatches])⟩

end TheiaBridge
